import Mathlib

/-!
Verification of the ArgusPanoptes report-generation core
(`render_latex.py`, `generate_charts.py`, `generate_maps.py`), shallowly
embedded: Python dict records become structures, fallible operations
(such as `max` on an empty sequence) become `Option`, floats become `ℚ`,
and Python's stable `list.sort` becomes a stable insertion sort.
-/

namespace ArgusPanoptes

/-- A book record as consumed by `build_theme_stats`: a `title` and the
`systemCount` field (number of systems holding the book, default 0). -/
structure Book where
  title : String
  systemCount : Nat
deriving Repr, DecidableEq

/-- A record of `top_systems.json` as used by `build_context` and
`chart6_availability_bar`. -/
structure SystemRec where
  systemName : String
  booksHeld : Nat
  totalCopies : Nat
  totalAvailable : Nat
deriving Repr, DecidableEq

/-- A geocoded library record of `geocoded_libraries.json` as used by the
map figures; a missing coordinate is `none`. -/
structure LibraryRec where
  name : String
  enabled : Bool
  lat : Option ℚ
  lng : Option ℚ
  region : String
  booksHeld : Nat
  totalCopies : Nat
  totalAvailable : Nat
deriving Repr, DecidableEq

/-- Python `str.lower` restricted to the ASCII range (all keywords in the
theme table are ASCII). -/
def lowerStr (s : String) : String :=
  String.mk (s.data.map Char.toLower)

/-- Does `text` start with `kw`? (helper for Python's `in` on strings). -/
def startsWithChars : List Char → List Char → Bool
  | [], _ => true
  | _ :: _, [] => false
  | k :: ks, t :: ts => k == t && startsWithChars ks ts

/-- Python substring test `kw in text` on character lists. -/
def containsChars (kw : List Char) : List Char → Bool
  | [] => kw.isEmpty
  | t :: ts => startsWithChars kw (t :: ts) || containsChars kw ts

/-- Python `kw in text` for strings. -/
def strIn (kw text : String) : Bool :=
  containsChars kw.data text.data

/-- The `THEME_KEYWORDS` table of `render_latex.py`: category name paired
with its lowercase keyword fragments. -/
def THEME_KEYWORDS : List (String × List String) := [
  ("Gender Identity & Transgender", [
    "transgender", "trans ", "trans-", "gender identity", "nonbinary",
    "non-binary", "genderqueer", "gender queer", "gender creative",
    "cisgender", "assigned male", "assigned female", "gender spectrum",
    "gender fluid", "they/them"]),
  ("LGBTQ+ Content", [
    "gay", "lesbian", "queer", "bisexual", "lgbtq", "same-sex",
    "two moms", "two dads", "two brides", "pride parade", "homosexual",
    "coming out", "drag queen"]),
  ("Sexuality & Sex Education", [
    "sex education", "sex is a", "sexuality", "sexual identity",
    "sexual orientation", "bodies, feelings", "puberty",
    "s.e.x.", "sex, puberty"]),
  ("Abortion & Reproductive Politics", [
    "abortion", "roe v. wade", "reproductive right", "pro-choice",
    "pro-life", "planned parenthood"]),
  ("Critical Race Theory & Racial Activism", [
    "black lives matter", "blm", "critical race", "antiracist",
    "anti-racist", "white fragility", "white privilege",
    "systemic racism", "white supremacy"])]

/-- The function `categorize_book` of `render_latex.py`: the set of theme categories a
book belongs to, as the sublist of table categories having some keyword
that occurs in the lowercased title. -/
def categorize_book (b : Book) : List String :=
  (THEME_KEYWORDS.filter
    (fun ck => ck.2.any (fun kw => strIn kw (lowerStr b.title)))).map Prod.fst

/-- Insert a book into a list that is (descending-)sorted by
`systemCount`, before the first book of strictly smaller or equal count:
the stable insertion step of `matching.sort(key=..., reverse=True)`. -/
def insertDesc (b : Book) : List Book → List Book
  | [] => [b]
  | x :: xs =>
    if x.systemCount ≤ b.systemCount then b :: x :: xs
    else x :: insertDesc b xs

/-- Stable sort by descending `systemCount`, modelling Python's stable
`list.sort(key=lambda b: b.get("systemCount", 0), reverse=True)`. -/
def sortDesc : List Book → List Book
  | [] => []
  | b :: bs => insertDesc b (sortDesc bs)

/-- The per-category record built by `build_theme_stats`. -/
structure ThemeStat where
  count : Nat
  examples : List String
  top_system_counts : List Nat
  total_holdings : Nat
deriving Repr, DecidableEq

/-- The books of `all_books` matching category `cat` (the inner filter
loop of `build_theme_stats`), in input order. -/
def matchingBooks (books : List Book) (cat : String) : List Book :=
  books.filter (fun b => (categorize_book b).contains cat)

/-- The `ThemeStat` that `build_theme_stats` assigns to one category. -/
def themeStatFor (books : List Book) (cat : String) : ThemeStat :=
  let matching := sortDesc (matchingBooks books cat)
  { count := matching.length
    examples := (matching.take 5).map Book.title
    top_system_counts := (matching.take 5).map Book.systemCount
    total_holdings := (matching.map Book.systemCount).sum }

/-- The function `build_theme_stats` of `render_latex.py`: one entry per category of
`THEME_KEYWORDS`, in table order. -/
def build_theme_stats (books : List Book) : List (String × ThemeStat) :=
  THEME_KEYWORDS.map (fun ck => (ck.1, themeStatFor books ck.1))

/-- Tier 1 of `build_context`: systems with `booksHeld >= 20`. -/
def tier1 (systems : List SystemRec) : List SystemRec :=
  systems.filter (fun s => 20 ≤ s.booksHeld)

/-- Tier 2 of `build_context`: systems with `5 <= booksHeld < 20`. -/
def tier2 (systems : List SystemRec) : List SystemRec :=
  systems.filter (fun s => 5 ≤ s.booksHeld && s.booksHeld < 20)

/-- Tier 3 of `build_context`: systems with `1 <= booksHeld < 5`. -/
def tier3 (systems : List SystemRec) : List SystemRec :=
  systems.filter (fun s => 1 ≤ s.booksHeld && s.booksHeld < 5)

/-- Round-half-to-even on rationals, modelling Python's `round` on the
exact value. -/
def roundHalfEven (q : ℚ) : ℤ :=
  if q - q.floor < 1/2 then q.floor
  else if 1/2 < q - q.floor then q.floor + 1
  else if Even q.floor then q.floor else q.floor + 1

/-- The quantity `found_pct` of `build_context`: `round(100*booksFound/booksScanned, 1)`
when `booksScanned > 0`, else `0` (no division performed). -/
def found_pct (booksFound booksScanned : Nat) : ℚ :=
  if 0 < booksScanned then
    (roundHalfEven (10 * (100 * booksFound / booksScanned)) : ℚ) / 10
  else 0

/-- Python `max` over a list of naturals: `none` on the empty list,
where Python raises `ValueError`. -/
def listMax : List Nat → Option Nat
  | [] => none
  | x :: xs => some (xs.foldl Nat.max x)

/-- Model of `np.arange(0, stop, step)` for naturals and `step > 0`: the multiples
of `step` that are `< stop`. -/
def arange (stop step : Nat) : List Nat :=
  (List.range ((stop + step - 1) / step)).map (· * step)

/-- The bin edges of `chart3_books_per_system_hist`:
`np.arange(0, max(books_counts) + 10, 10)`; `none` when the list is empty
because `max([])` raises. -/
def chart3_bins (books_counts : List Nat) : Option (List Nat) :=
  match listMax books_counts with
  | none => none
  | some m => some (arange (m + 10) 10)

/-- The bin edges of `chart4_systems_per_book_hist`:
`max_count = max(system_counts) if system_counts else 1` then
`np.arange(0, max_count + 5, 5)`. -/
def chart4_bins (system_counts : List Nat) : List Nat :=
  let max_count := (listMax system_counts).getD 1
  arange (max_count + 5) 5

/-- Python `county_books.get(k, 0)` on an association list. -/
def lookupCounty (county_books : List (String × Nat)) (k : String) : Nat :=
  ((county_books.lookup k).getD 0)

/-- The name-normalizing lookup of `fig2_coverage_choropleth`: try the
suffixed key `"<name> County"` first, fall back to the bare name when
that yields 0. -/
def choroplethBooks (county_books : List (String × Nat))
    (county_name : String) : Nat :=
  let books := lookupCounty county_books (county_name ++ " County")
  if books = 0 then lookupCounty county_books county_name else books

/-- The fill a county feature receives in the choropleth. -/
inductive ChoroFill where
  | shaded (books : Nat)
  | noData
deriving Repr, DecidableEq

/-- The assignment `color = cmap(norm(books)) if books > 0 else "#f0f0f0"` in
`fig2_coverage_choropleth`. -/
def choroplethFill (county_books : List (String × Nat))
    (county_name : String) : ChoroFill :=
  let b := choroplethBooks county_books county_name
  if 0 < b then ChoroFill.shaded b else ChoroFill.noData

/-- Stable insertion by a rational key, ascending: the insertion step of
Python's stable `sorted` / `list.sort`. -/
def insertLe {α : Type} (key : α → ℚ) (a : α) : List α → List α
  | [] => [a]
  | x :: xs => if key a ≤ key x then a :: x :: xs else x :: insertLe key a xs

/-- Stable ascending sort by a rational key, modelling Python's stable
`sorted(..., key=...)`. -/
def sortLeBy {α : Type} (key : α → ℚ) : List α → List α
  | [] => []
  | a :: as => insertLe key a (sortLeBy key as)

/-- The record list rendered by `chart6_availability_bar`: filter to
`totalCopies > 0`, attach `availRate = totalAvailable / totalCopies`,
take the top 25 by `booksHeld` (via the key `-booksHeld`), then sort
ascending by `availRate`. -/
def chart6_records (systems : List SystemRec) : List (SystemRec × ℚ) :=
  let with_copies := systems.filter (fun s => 0 < s.totalCopies)
  let rated := with_copies.map
    (fun s => (s, (s.totalAvailable : ℚ) / (s.totalCopies : ℚ)))
  let top := (sortLeBy (fun p => -((p.1.booksHeld : ℚ))) rated).take 25
  sortLeBy (fun p => p.2) top

/-- The libraries plotted by `fig5_availability_map`: enabled, geocoded,
and with `totalCopies > 0`. -/
def fig5_with_copies (libs : List LibraryRec) : List LibraryRec :=
  libs.filter (fun l => l.enabled && l.lat.isSome && 0 < l.totalCopies)

/-- The availability rates computed by `fig5_availability_map` (only over
`fig5_with_copies`). -/
def fig5_rates (libs : List LibraryRec) : List ℚ :=
  (fig5_with_copies libs).map
    (fun l => (l.totalAvailable : ℚ) / (l.totalCopies : ℚ))

/-- Python `s[:n]` on strings. -/
def pyTake (n : Nat) (s : String) : String :=
  String.mk (s.data.take n)

/-- The y-tick label of `chart1_top_systems_bar`:
`n[:40] + "..." if len(n) > 40 else n`. -/
def chart1_label (name : String) : String :=
  if 40 < name.length then pyTake 40 name ++ "..." else name

/-- The y-tick label of `chart2_top_books_bar`:
`b["title"][:45] + "..." if len(b["title"]) > 45 else b["title"]`. -/
def chart2_label (title : String) : String :=
  if 45 < title.length then pyTake 45 title ++ "..." else title

/-- The y-tick label of `chart6_availability_bar`:
`s["systemName"][:40]` (no ellipsis). -/
def chart6_label (name : String) : String :=
  pyTake 40 name

/-! ### Lemmas about the stable descending sort used by `build_theme_stats` -/

theorem insertDesc_perm (b : Book) (l : List Book) :
    (insertDesc b l).Perm (b :: l) := by
  induction l with
  | nil => exact List.Perm.refl _
  | cons x xs ih =>
    by_cases h : x.systemCount ≤ b.systemCount
    · simp [insertDesc, h]
    · simp only [insertDesc, if_neg h]
      exact (ih.cons x).trans (List.Perm.swap b x xs)

theorem mem_insertDesc {x b : Book} {l : List Book} :
    x ∈ insertDesc b l ↔ x = b ∨ x ∈ l := by
  rw [(insertDesc_perm b l).mem_iff, List.mem_cons]

theorem insertDesc_pairwise {b : Book} {l : List Book}
    (h : l.Pairwise (fun a c => c.systemCount ≤ a.systemCount)) :
    (insertDesc b l).Pairwise (fun a c => c.systemCount ≤ a.systemCount) := by
  induction l with
  | nil => simp [insertDesc]
  | cons x xs ih =>
    rcases List.pairwise_cons.mp h with ⟨hx, hxs⟩
    by_cases hb : x.systemCount ≤ b.systemCount
    · simp only [insertDesc, if_pos hb]
      refine List.pairwise_cons.mpr ⟨?_, List.pairwise_cons.mpr ⟨hx, hxs⟩⟩
      intro c hc
      rcases List.mem_cons.mp hc with rfl | hc
      · exact hb
      · exact le_trans (hx c hc) hb
    · simp only [insertDesc, if_neg hb]
      refine List.pairwise_cons.mpr ⟨?_, ih hxs⟩
      intro c hc
      rcases mem_insertDesc.mp hc with rfl | hc
      · exact le_of_not_le hb
      · exact hx c hc

theorem sortDesc_perm (l : List Book) : (sortDesc l).Perm l := by
  induction l with
  | nil => exact List.Perm.refl _
  | cons b bs ih => exact (insertDesc_perm b (sortDesc bs)).trans (ih.cons b)

theorem sortDesc_pairwise (l : List Book) :
    (sortDesc l).Pairwise (fun a c => c.systemCount ≤ a.systemCount) := by
  induction l with
  | nil => simp [sortDesc]
  | cons b bs ih => exact insertDesc_pairwise ih

theorem filter_insertDesc (b : Book) (l : List Book) (k : Nat) :
    (insertDesc b l).filter (fun x => x.systemCount == k) =
      if b.systemCount = k then
        b :: l.filter (fun x => x.systemCount == k)
      else l.filter (fun x => x.systemCount == k) := by
  induction l with
  | nil =>
    by_cases hb : b.systemCount = k <;>
      simp [insertDesc, List.filter_cons, hb]
  | cons x xs ih =>
    by_cases hle : x.systemCount ≤ b.systemCount
    · rw [insertDesc, if_pos hle]
      by_cases hb : b.systemCount = k <;>
        by_cases hx : x.systemCount = k <;>
          simp [List.filter_cons, hb, hx]
    · rw [insertDesc, if_neg hle]
      rw [List.filter_cons, List.filter_cons, ih]
      by_cases hb : b.systemCount = k
      · have hxne : ¬ x.systemCount = k := fun hx =>
          hle (le_of_eq (hx.trans hb.symm))
        simp [hb, hxne]
      · simp [hb]

theorem sortDesc_filter_eq (l : List Book) (k : Nat) :
    (sortDesc l).filter (fun x => x.systemCount == k) =
      l.filter (fun x => x.systemCount == k) := by
  induction l with
  | nil => rfl
  | cons b bs ih =>
    simp only [sortDesc, filter_insertDesc, ih, List.filter_cons]
    by_cases hb : b.systemCount = k <;> simp [hb]

theorem build_theme_stats_mem {books : List Book} {cat : String}
    {stat : ThemeStat} (h : (cat, stat) ∈ build_theme_stats books) :
    stat = themeStatFor books cat := by
  rcases List.mem_map.mp h with ⟨ck, _, heq⟩
  rcases Prod.mk.injEq .. ▸ heq with ⟨h1, h2⟩
  exact h2.symm.trans (congrArg (themeStatFor books) h1)

theorem lookup_theme_map (books : List Book) (cat : String)
    (tbl : List (String × List String)) (h : cat ∈ tbl.map Prod.fst) :
    (tbl.map (fun ck => (ck.1, themeStatFor books ck.1))).lookup cat =
      some (themeStatFor books cat) := by
  induction tbl with
  | nil => simp at h
  | cons ck tbl ih =>
    by_cases hc : cat = ck.1
    · subst hc
      simp [List.lookup]
    · have hmem : cat ∈ tbl.map Prod.fst := by
        rw [List.map_cons, List.mem_cons] at h
        exact h.resolve_left hc
      have hbeq : (cat == ck.1) = false := beq_eq_false_iff_ne.mpr hc
      simp [List.lookup, hbeq, ih hmem]

/-- C1: every `ThemeStat` produced by `build_theme_stats` has at most 5
example titles, and the examples are the titles of the first 5 books of
the matching list sorted stably by descending `systemCount`: that sorted
list is a permutation of the matching books, its `systemCount`s are
weakly decreasing, and for every count value the books of that count
stay in their original input order. -/
theorem C1_theme_examples (books : List Book) (cat : String)
    (stat : ThemeStat) (hmem : (cat, stat) ∈ build_theme_stats books) :
    stat.examples.length ≤ 5 ∧
    stat.examples =
      ((sortDesc (matchingBooks books cat)).take 5).map Book.title ∧
    (sortDesc (matchingBooks books cat)).Perm (matchingBooks books cat) ∧
    (sortDesc (matchingBooks books cat)).Pairwise
      (fun a c => c.systemCount ≤ a.systemCount) ∧
    ∀ k, (sortDesc (matchingBooks books cat)).filter
          (fun b => b.systemCount == k) =
        (matchingBooks books cat).filter (fun b => b.systemCount == k) := by
  have hstat := build_theme_stats_mem hmem
  subst hstat
  refine ⟨?_, rfl, sortDesc_perm _, sortDesc_pairwise _,
    fun k => sortDesc_filter_eq _ k⟩
  simp only [themeStatFor, List.length_map, List.length_take]
  exact min_le_left _ _

/-- Witness for C1 at a concrete two-book input. -/
theorem C1_witness :
    (("LGBTQ+ Content",
       ({ count := 1, examples := ["the gay book"], top_system_counts := [7],
          total_holdings := 7 } : ThemeStat)) ∈
      build_theme_stats [⟨"transgender kids", 2⟩, ⟨"the gay book", 7⟩]) ∧
    (({ count := 1, examples := ["the gay book"], top_system_counts := [7],
        total_holdings := 7 } : ThemeStat).examples.length ≤ 5 ∧
     ({ count := 1, examples := ["the gay book"], top_system_counts := [7],
        total_holdings := 7 } : ThemeStat).examples =
       ((sortDesc (matchingBooks
           [⟨"transgender kids", 2⟩, ⟨"the gay book", 7⟩]
           "LGBTQ+ Content")).take 5).map Book.title ∧
     (sortDesc (matchingBooks [⟨"transgender kids", 2⟩, ⟨"the gay book", 7⟩]
         "LGBTQ+ Content")).Perm
       (matchingBooks [⟨"transgender kids", 2⟩, ⟨"the gay book", 7⟩]
         "LGBTQ+ Content") ∧
     (sortDesc (matchingBooks [⟨"transgender kids", 2⟩, ⟨"the gay book", 7⟩]
         "LGBTQ+ Content")).Pairwise
       (fun a c => c.systemCount ≤ a.systemCount) ∧
     ∀ k, (sortDesc (matchingBooks
             [⟨"transgender kids", 2⟩, ⟨"the gay book", 7⟩]
             "LGBTQ+ Content")).filter (fun b => b.systemCount == k) =
         (matchingBooks [⟨"transgender kids", 2⟩, ⟨"the gay book", 7⟩]
             "LGBTQ+ Content").filter (fun b => b.systemCount == k)) :=
  ⟨by decide,
   C1_theme_examples [⟨"transgender kids", 2⟩, ⟨"the gay book", 7⟩]
     "LGBTQ+ Content" _ (by decide)⟩

/-- C10: for every input book list the mapping built by
`build_theme_stats` has exactly the categories of `THEME_KEYWORDS` as
keys (in table order), and a category with no matching book is still
present, with count 0, no examples and zero total holdings. -/
theorem C10_theme_totality (books : List Book) :
    (build_theme_stats books).map Prod.fst = THEME_KEYWORDS.map Prod.fst ∧
    ∀ cat, cat ∈ THEME_KEYWORDS.map Prod.fst →
      (∀ b, b ∈ books → ((categorize_book b).contains cat) = false) →
      (build_theme_stats books).lookup cat =
        some { count := 0, examples := [], top_system_counts := [],
               total_holdings := 0 } := by
  constructor
  · simp [build_theme_stats, List.map_map, Function.comp]
  · intro cat hcat hnone
    have hmatch : matchingBooks books cat = [] := by
      simp only [matchingBooks, List.filter_eq_nil_iff]
      intro b hb
      simpa using hnone b hb
    have hstat : themeStatFor books cat =
        { count := 0, examples := [], top_system_counts := [],
          total_holdings := 0 } := by
      simp [themeStatFor, hmatch, sortDesc]
    rw [build_theme_stats, lookup_theme_map books cat THEME_KEYWORDS hcat,
      hstat]

/-- Witness for C10 at the empty book list. -/
theorem C10_witness :
    ("Abortion & Reproductive Politics" ∈ THEME_KEYWORDS.map Prod.fst) ∧
    (∀ b, b ∈ ([] : List Book) →
      ((categorize_book b).contains "Abortion & Reproductive Politics")
        = false) ∧
    (build_theme_stats []).lookup "Abortion & Reproductive Politics" =
      some { count := 0, examples := [], top_system_counts := [],
             total_holdings := 0 } :=
  ⟨by decide, fun b hb => absurd hb (List.not_mem_nil b),
   (C10_theme_totality []).2 "Abortion & Reproductive Politics" (by decide)
     (fun b hb => absurd hb (List.not_mem_nil b))⟩

/-- C2: the three tiers computed by `build_context` are mutually
exclusive, and the boundary counts land in the documented tier only:
`booksHeld = 20` is in tier 1, `= 5` in tier 2, `= 1` in tier 3, never
an adjacent one. -/
theorem C2_tiers (systems : List SystemRec) (s : SystemRec)
    (hs : s ∈ systems) :
    (¬(s ∈ tier1 systems ∧ s ∈ tier2 systems)) ∧
    (¬(s ∈ tier1 systems ∧ s ∈ tier3 systems)) ∧
    (¬(s ∈ tier2 systems ∧ s ∈ tier3 systems)) ∧
    (s.booksHeld = 20 →
      s ∈ tier1 systems ∧ s ∉ tier2 systems ∧ s ∉ tier3 systems) ∧
    (s.booksHeld = 5 →
      s ∈ tier2 systems ∧ s ∉ tier1 systems ∧ s ∉ tier3 systems) ∧
    (s.booksHeld = 1 →
      s ∈ tier3 systems ∧ s ∉ tier1 systems ∧ s ∉ tier2 systems) := by
  simp only [tier1, tier2, tier3, List.mem_filter, hs, true_and,
    Bool.and_eq_true, decide_eq_true_eq]
  omega

/-- Witness for C2 at a single boundary system with 20 books held. -/
theorem C2_witness :
    ((⟨"A", 20, 3, 1⟩ : SystemRec) ∈ [(⟨"A", 20, 3, 1⟩ : SystemRec)]) ∧
    ((⟨"A", 20, 3, 1⟩ : SystemRec).booksHeld = 20 →
      (⟨"A", 20, 3, 1⟩ : SystemRec) ∈ tier1 [⟨"A", 20, 3, 1⟩] ∧
      (⟨"A", 20, 3, 1⟩ : SystemRec) ∉ tier2 [⟨"A", 20, 3, 1⟩] ∧
      (⟨"A", 20, 3, 1⟩ : SystemRec) ∉ tier3 [⟨"A", 20, 3, 1⟩]) :=
  ⟨by decide,
   (C2_tiers [⟨"A", 20, 3, 1⟩] ⟨"A", 20, 3, 1⟩ (by decide)).2.2.2.1⟩

/-- C3: the choropleth lookup of `fig2_coverage_choropleth` tries the
suffixed key `"<name> County"` first and then the bare name: a feature
named `"Travis"` with a positive aggregate stored under `"Travis
County"` is shaded with that aggregate; when the suffixed key is absent,
or holds 0, a positive aggregate under the bare name is used and shaded;
and a feature matching neither key, or one whose looked-up total is
zero, receives the neutral "no data" fill (the lookup is total, it
cannot raise). -/
theorem C3_choropleth (cb : List (String × Nat)) (v : Nat) :
    (cb.lookup "Travis County" = some v → 0 < v →
      choroplethFill cb "Travis" = ChoroFill.shaded v) ∧
    (∀ name, cb.lookup (name ++ " County") = none →
      cb.lookup name = some v → 0 < v →
      choroplethFill cb name = ChoroFill.shaded v) ∧
    (∀ name, cb.lookup (name ++ " County") = some 0 →
      cb.lookup name = some v → 0 < v →
      choroplethFill cb name = ChoroFill.shaded v) ∧
    (∀ name, cb.lookup (name ++ " County") = none → cb.lookup name = none →
      choroplethFill cb name = ChoroFill.noData) ∧
    (∀ name, choroplethBooks cb name = 0 →
      choroplethFill cb name = ChoroFill.noData) := by
  refine ⟨?_, ?_, ?_, ?_, ?_⟩
  · intro hlk hv
    have hkey : "Travis" ++ " County" = "Travis County" := by decide
    have hbooks : choroplethBooks cb "Travis" = v := by
      rw [choroplethBooks, lookupCounty, hkey, hlk]
      simp [Nat.pos_iff_ne_zero.mp hv]
    rw [choroplethFill, hbooks, if_pos hv]
  · intro name hsuf hbare hv
    have hbooks : choroplethBooks cb name = v := by
      rw [choroplethBooks, lookupCounty, lookupCounty, hsuf, hbare]
      simp
    rw [choroplethFill, hbooks, if_pos hv]
  · intro name hsuf hbare hv
    have hbooks : choroplethBooks cb name = v := by
      rw [choroplethBooks, lookupCounty, lookupCounty, hsuf, hbare]
      simp
    rw [choroplethFill, hbooks, if_pos hv]
  · intro name hsuf hbare
    have hbooks : choroplethBooks cb name = 0 := by
      rw [choroplethBooks, lookupCounty, lookupCounty, hsuf, hbare]
      simp
    rw [choroplethFill, hbooks]
    simp
  · intro name hzero
    rw [choroplethFill, hzero]
    simp

/-- Witness for C3: a suffixed-key hit, and a suffixed-key miss falling
back to a positive bare-name aggregate. -/
theorem C3_witness :
    (([("Travis County", 7)].lookup "Travis County" = some 7) ∧ (0 < 7) ∧
     choroplethFill [("Travis County", 7)] "Travis" =
       ChoroFill.shaded 7) ∧
    (([("Bexar", 5)].lookup ("Bexar" ++ " County") = none) ∧
     ([("Bexar", 5)].lookup "Bexar" = some 5) ∧ (0 < 5) ∧
     choroplethFill [("Bexar", 5)] "Bexar" = ChoroFill.shaded 5) :=
  ⟨⟨by decide, by decide,
    (C3_choropleth [("Travis County", 7)] 7).1 (by decide) (by decide)⟩,
   ⟨by decide, by decide, by decide,
    (C3_choropleth [("Bexar", 5)] 5).2.1 "Bexar" (by decide) (by decide)
      (by decide)⟩⟩

/-- The `Rat.floor` used in `roundHalfEven` agrees with the floor of the
order structure on `ℚ`. -/
theorem rat_floor_eq_floor (q : ℚ) : (q.floor : ℤ) = ⌊q⌋ := by
  have h1 : ((q.floor : ℤ) : ℚ) ≤ q := Rat.le_floor.mp (le_refl _)
  have h2 : q < ((q.floor : ℤ) : ℚ) + 1 := by
    by_contra hcon
    push_neg at hcon
    have hcast : ((q.floor + 1 : ℤ) : ℚ) ≤ q := by push_cast; linarith
    have := Rat.le_floor.mpr hcast
    omega
  exact ((Int.floor_eq_iff (α := ℚ)).mpr ⟨h1, h2⟩).symm

theorem roundHalfEven_close (q : ℚ) :
    |((roundHalfEven q : ℤ) : ℚ) - q| ≤ 1/2 := by
  have h1 : ((q.floor : ℤ) : ℚ) ≤ q := Rat.le_floor.mp (le_refl _)
  have h2 : q < ((q.floor : ℤ) : ℚ) + 1 := by
    by_contra hcon
    push_neg at hcon
    have hcast : ((q.floor + 1 : ℤ) : ℚ) ≤ q := by push_cast; linarith
    have := Rat.le_floor.mpr hcast
    omega
  rw [roundHalfEven]
  split
  · rename_i hlt
    rw [abs_le]
    constructor <;> linarith
  · rename_i hge
    push_neg at hge
    split
    · rename_i hgt
      rw [abs_le]
      push_cast
      constructor <;> linarith
    · rename_i hle
      push_neg at hle
      have hmid : q - ((q.floor : ℤ) : ℚ) = 1/2 := le_antisymm hle hge
      split <;> (rw [abs_le]; push_cast; constructor <;> linarith)

/-- C4: `found_pct` equals `100 * booksFound / booksScanned` rounded to
one decimal place when `booksScanned > 0` (so 150 of 1000 gives 15.0, and
in general the result is within 0.05 of the exact percentage), and it is
0 when `booksScanned = 0`, without performing the division. -/
theorem C4_found_pct :
    found_pct 150 1000 = 15 ∧
    (∀ f, found_pct f 0 = 0) ∧
    (∀ f s, 0 < s →
      |found_pct f s - 100 * (f : ℚ) / (s : ℚ)| ≤ 1/20) := by
  refine ⟨?_, ?_, ?_⟩
  · rw [found_pct, if_pos (by norm_num : (0:ℕ) < 1000)]
    have harg : (10:ℚ) * (100 * ((150:ℕ):ℚ) / ((1000:ℕ):ℚ)) = 150 := by
      norm_num
    rw [harg]
    have hfl : ((150:ℚ).floor : ℤ) = 150 := by
      rw [rat_floor_eq_floor]
      norm_num
    rw [roundHalfEven, hfl]
    norm_num
  · intro f
    rw [found_pct]
    simp
  · intro f s hs
    rw [found_pct, if_pos hs]
    have hb := roundHalfEven_close (10 * (100 * (f:ℚ) / (s:ℚ)))
    have heq :
        ((roundHalfEven (10 * (100 * (f:ℚ) / (s:ℚ))) : ℤ) : ℚ) / 10 -
            100 * (f:ℚ) / (s:ℚ) =
          (((roundHalfEven (10 * (100 * (f:ℚ) / (s:ℚ))) : ℤ) : ℚ) -
            10 * (100 * (f:ℚ) / (s:ℚ))) / 10 := by
      ring
    rw [heq, abs_div]
    rw [show |(10:ℚ)| = 10 by norm_num]
    linarith

/-- Witness for C4: the in-range case at 1 found of 3 scanned. -/
theorem C4_witness :
    (0 < 3) ∧
    |found_pct 1 3 - 100 * ((1:ℕ):ℚ) / ((3:ℕ):ℚ)| ≤ 1/20 :=
  ⟨by decide, C4_found_pct.2.2 1 3 (by decide)⟩

/-- C5 counterexample: `chart3_books_per_system_hist` does not survive an
empty record list — `max(books_counts)` raises on the empty list, modelled
as `none`. -/
theorem C5_counterexample : chart3_bins [] = none := rfl

/-- C5 (amended): `chart4_systems_per_book_hist` completes on an empty
count list (its `max` is guarded with default 1, giving edges `[0, 5]`),
while `chart3_books_per_system_hist` raises on the empty list and
completes on every non-empty list. -/
theorem C5_amended :
    chart4_bins [] = [0, 5] ∧
    (∀ l : List Nat, l ≠ [] → ∃ bins, chart3_bins l = some bins) ∧
    chart3_bins [] = none := by
  refine ⟨by decide, ?_, rfl⟩
  intro l hl
  match l with
  | [] => exact absurd rfl hl
  | x :: xs => exact ⟨_, rfl⟩

/-- Witness for C5 (amended) at the one-element list `[3]`. -/
theorem C5_witness :
    (([3] : List Nat) ≠ []) ∧ ∃ bins, chart3_bins [3] = some bins :=
  ⟨by decide, C5_amended.2.1 [3] (by decide)⟩

/-! ### Shape of `np.arange` bin edges -/

theorem arange_facts (m n step : Nat)
    (hn : (m + step + step - 1) / step = n + 1) :
    (arange (m + step) step).Chain' (fun a b => b = a + step) ∧
    (arange (m + step) step).head? = some 0 ∧
    (arange (m + step) step).getLast? = some (n * step) := by
  have harr : arange (m + step) step =
      (List.range (n + 1)).map (· * step) := by
    rw [arange, hn]
  rw [harr]
  refine ⟨?_, ?_, ?_⟩
  · rw [List.chain'_map, List.chain'_range_succ]
    intro i _
    simp [Nat.succ_eq_add_one]
    ring
  · rw [List.range_succ_eq_map]
    simp
  · rw [List.range_succ, List.map_append]
    simp

/-- C6 counterexample: for the input `[20]` (maximum a multiple of the bin
width) the chart-3 bin edges are `[0, 10, 20]`, and no edge extends
strictly beyond the maximum data point 20. -/
theorem C6_counterexample :
    chart3_bins [20] = some [0, 10, 20] ∧
    ([0, 10, 20].all (fun e => e ≤ 20)) = true := by decide

/-- C6 (amended): each histogram's bin edges start at 0 and are fixed
width (10 for books-per-system, 5 for systems-per-book), computed from
the observed maximum plus a margin; the last edge is always at least the
maximum data point and less than one full bin width beyond it, and it
extends strictly beyond the maximum exactly when the maximum is not a
multiple of the bin width. -/
theorem C6_amended :
    (∀ (l : List Nat) (m : Nat), listMax l = some m →
      ∃ bins, chart3_bins l = some bins ∧
        bins.Chain' (fun a b => b = a + 10) ∧
        bins.head? = some 0 ∧
        ∃ last, bins.getLast? = some last ∧ m ≤ last ∧ last < m + 10 ∧
          (m < last ↔ ¬ (10 ∣ m))) ∧
    (∀ (l : List Nat) (m : Nat), listMax l = some m →
      (chart4_bins l).Chain' (fun a b => b = a + 5) ∧
      (chart4_bins l).head? = some 0 ∧
      ∃ last, (chart4_bins l).getLast? = some last ∧ m ≤ last ∧
        last < m + 5 ∧ (m < last ↔ ¬ (5 ∣ m))) := by
  constructor
  · intro l m hmax
    refine ⟨arange (m + 10) 10, by rw [chart3_bins, hmax], ?_⟩
    obtain ⟨n, hn⟩ : ∃ n, (m + 10 + 10 - 1) / 10 = n + 1 :=
      ⟨(m + 10 + 10 - 1) / 10 - 1, by omega⟩
    obtain ⟨hchain, hhead, hlast⟩ := arange_facts m n 10 hn
    refine ⟨hchain, hhead, n * 10, hlast, ?_, ?_, ?_⟩
    · omega
    · omega
    · rw [Nat.dvd_iff_mod_eq_zero]
      omega
  · intro l m hmax
    have hbins : chart4_bins l = arange (m + 5) 5 := by
      rw [chart4_bins, hmax]
      rfl
    rw [hbins]
    obtain ⟨n, hn⟩ : ∃ n, (m + 5 + 5 - 1) / 5 = n + 1 :=
      ⟨(m + 5 + 5 - 1) / 5 - 1, by omega⟩
    obtain ⟨hchain, hhead, hlast⟩ := arange_facts m n 5 hn
    refine ⟨hchain, hhead, n * 5, hlast, ?_, ?_, ?_⟩
    · omega
    · omega
    · rw [Nat.dvd_iff_mod_eq_zero]
      omega

/-- Witness for C6 (amended) at the one-element list `[7]`. -/
theorem C6_witness :
    (listMax [7] = some 7) ∧
    (∃ bins, chart3_bins [7] = some bins ∧
      bins.Chain' (fun a b => b = a + 10) ∧
      bins.head? = some 0 ∧
      ∃ last, bins.getLast? = some last ∧ 7 ≤ last ∧ last < 7 + 10 ∧
        (7 < last ↔ ¬ (10 ∣ 7))) ∧
    ((chart4_bins [7]).Chain' (fun a b => b = a + 5) ∧
      (chart4_bins [7]).head? = some 0 ∧
      ∃ last, (chart4_bins [7]).getLast? = some last ∧ 7 ≤ last ∧
        last < 7 + 5 ∧ (7 < last ↔ ¬ (5 ∣ 7))) :=
  ⟨rfl, C6_amended.1 [7] 7 rfl, C6_amended.2 [7] 7 rfl⟩

/-! ### Lemmas about the generic stable sort used by `chart6` -/

theorem insertLe_perm {α : Type} (key : α → ℚ) (a : α) (l : List α) :
    (insertLe key a l).Perm (a :: l) := by
  induction l with
  | nil => exact List.Perm.refl _
  | cons x xs ih =>
    by_cases h : key a ≤ key x
    · simp [insertLe, h]
    · simp only [insertLe, if_neg h]
      exact (ih.cons x).trans (List.Perm.swap a x xs)

theorem sortLeBy_perm {α : Type} (key : α → ℚ) (l : List α) :
    (sortLeBy key l).Perm l := by
  induction l with
  | nil => exact List.Perm.refl _
  | cons a as ih => exact (insertLe_perm key a (sortLeBy key as)).trans (ih.cons a)

theorem mem_chart6_records {systems : List SystemRec} {p : SystemRec × ℚ}
    (h : p ∈ chart6_records systems) :
    p.1 ∈ systems ∧ 0 < p.1.totalCopies ∧
    p.2 = (p.1.totalAvailable : ℚ) / (p.1.totalCopies : ℚ) := by
  rw [chart6_records] at h
  have h1 := (sortLeBy_perm (fun p : SystemRec × ℚ => p.2) _).mem_iff.mp h
  have h2 := List.take_subset 25 _ h1
  have h3 := (sortLeBy_perm
    (fun p : SystemRec × ℚ => -((p.1.booksHeld : ℚ))) _).mem_iff.mp h2
  rcases List.mem_map.mp h3 with ⟨s, hs, hp⟩
  rcases List.mem_filter.mp hs with ⟨hmem, hpos⟩
  subst hp
  exact ⟨hmem, by simpa using hpos, rfl⟩

/-- C7: a record with `totalCopies = 0` is excluded from the availability
bar chart and the availability map: every record that reaches either
figure has `totalCopies > 0` (so the division is only performed there,
and its rate is its exact quotient), and a zero-copies record appears in
neither, under any rate value — it is never assigned a rate of 0. -/
theorem C7_zero_copies (systems : List SystemRec) (libs : List LibraryRec)
    (s : SystemRec) (lib : LibraryRec) :
    (∀ p, p ∈ chart6_records systems →
      0 < p.1.totalCopies ∧
      p.2 = (p.1.totalAvailable : ℚ) / (p.1.totalCopies : ℚ)) ∧
    (s.totalCopies = 0 → ∀ r : ℚ, (s, r) ∉ chart6_records systems) ∧
    (∀ l, l ∈ fig5_with_copies libs → 0 < l.totalCopies) ∧
    (lib.totalCopies = 0 → lib ∉ fig5_with_copies libs) ∧
    fig5_rates libs = (fig5_with_copies libs).map
      (fun l => (l.totalAvailable : ℚ) / (l.totalCopies : ℚ)) := by
  refine ⟨?_, ?_, ?_, ?_, rfl⟩
  · intro p hp
    exact ⟨(mem_chart6_records hp).2.1, (mem_chart6_records hp).2.2⟩
  · intro hzero r hmem
    have h1 : 0 < s.totalCopies := (mem_chart6_records hmem).2.1
    omega
  · intro l hl
    have := (List.mem_filter.mp hl).2
    simp only [Bool.and_eq_true, decide_eq_true_eq] at this
    exact this.2
  · intro hzero hmem
    have := (List.mem_filter.mp hmem).2
    simp only [Bool.and_eq_true, decide_eq_true_eq] at this
    omega

/-- Witness for C7 at a concrete system and library with zero copies. -/
theorem C7_witness :
    ((⟨"A", 5, 0, 0⟩ : SystemRec).totalCopies = 0) ∧
    (∀ r : ℚ, ((⟨"A", 5, 0, 0⟩ : SystemRec), r) ∉
      chart6_records [⟨"A", 5, 0, 0⟩]) ∧
    ((⟨"L", true, some 30, some (-97), "Travis County", 5, 0, 0⟩ :
        LibraryRec).totalCopies = 0) ∧
    (⟨"L", true, some 30, some (-97), "Travis County", 5, 0, 0⟩ :
        LibraryRec) ∉
      fig5_with_copies
        [⟨"L", true, some 30, some (-97), "Travis County", 5, 0, 0⟩] :=
  ⟨rfl,
   (C7_zero_copies [⟨"A", 5, 0, 0⟩] [] ⟨"A", 5, 0, 0⟩
     ⟨"L", true, some 30, some (-97), "Travis County", 5, 0, 0⟩).2.1 rfl,
   rfl,
   (C7_zero_copies []
     [⟨"L", true, some 30, some (-97), "Travis County", 5, 0, 0⟩]
     ⟨"A", 5, 0, 0⟩
     ⟨"L", true, some 30, some (-97), "Travis County", 5, 0, 0⟩).2.2.2.1
     rfl⟩

/-- C8: `categorize_book` is case-insensitive — two titles that agree
character-by-character up to letter case are assigned the same category
set. -/
theorem C8_categorize_case_insensitive (b1 b2 : Book)
    (h : b1.title.data.map Char.toLower = b2.title.data.map Char.toLower) :
    categorize_book b1 = categorize_book b2 := by
  have hlow : lowerStr b1.title = lowerStr b2.title :=
    congrArg String.mk h
  rw [categorize_book, categorize_book, hlow]

/-- Witness for C8: a title and a casing permutation of it. -/
theorem C8_witness :
    ((Book.mk "Gay Pride" 3).title.data.map Char.toLower =
      (Book.mk "gAY pRIDE" 3).title.data.map Char.toLower) ∧
    categorize_book (Book.mk "Gay Pride" 3) =
      categorize_book (Book.mk "gAY pRIDE" 3) :=
  ⟨by decide,
   C8_categorize_case_insensitive (Book.mk "Gay Pride" 3)
     (Book.mk "gAY pRIDE" 3) (by decide)⟩

theorem pyTake_of_le {n : Nat} {s : String} (h : s.length ≤ n) :
    pyTake n s = s := by
  rw [pyTake, List.take_of_length_le h]

/-- C9 counterexample: the chart-6 label of a 41-character name is the
bare 40-character prefix, not the truncation with an ellipsis suffix
that the claim requires of every bar chart. -/
theorem C9_counterexample :
    40 < (String.mk (List.replicate 41 'a')).length ∧
    chart6_label (String.mk (List.replicate 41 'a')) =
      String.mk (List.replicate 40 'a') ∧
    String.mk (List.replicate 40 'a') ≠
      pyTake 40 (String.mk (List.replicate 41 'a')) ++ "..." := by
  refine ⟨by decide, by decide, by decide⟩

/-- C9 (amended): `chart1` (budget 40) and `chart2` (budget 45) truncate
an over-budget label to the budget and append an ellipsis, and leave a
within-budget label unchanged; `chart6` instead silently truncates to 40
characters with no ellipsis (leaving within-budget labels unchanged). -/
theorem C9_labels (s : String) :
    (40 < s.length → chart1_label s = pyTake 40 s ++ "...") ∧
    (s.length ≤ 40 → chart1_label s = s) ∧
    (45 < s.length → chart2_label s = pyTake 45 s ++ "...") ∧
    (s.length ≤ 45 → chart2_label s = s) ∧
    chart6_label s = pyTake 40 s ∧
    (s.length ≤ 40 → chart6_label s = s) := by
  refine ⟨?_, ?_, ?_, ?_, rfl, ?_⟩
  · intro h
    rw [chart1_label, if_pos h]
  · intro h
    rw [chart1_label, if_neg (not_lt.mpr h)]
  · intro h
    rw [chart2_label, if_pos h]
  · intro h
    rw [chart2_label, if_neg (not_lt.mpr h)]
  · intro h
    rw [chart6_label, pyTake_of_le h]

/-- Witness for C9 (amended) at a 41-character name. -/
theorem C9_witness :
    (40 < (String.mk (List.replicate 41 'b')).length) ∧
    chart1_label (String.mk (List.replicate 41 'b')) =
      pyTake 40 (String.mk (List.replicate 41 'b')) ++ "..." :=
  ⟨by decide, (C9_labels (String.mk (List.replicate 41 'b'))).1 (by decide)⟩

end ArgusPanoptes
